import Mathlib

/-!
Verification of the collab-code-review backend's merge-gating policy engine,
rule store, presence layer and merge/force-merge endpoints.

The definitions below are a shallow embedding of the TypeScript source:
* `backend/src/middleware/branchProtection.ts` — policy evaluator
  (`getBranchProtectionStatus`, `checkCIStatus`, `checkBranchUpToDate`,
  `isProtectedBranch`, `validatePRRequirements`, `checkBypassPermission`)
  and rule store (`getBranchProtectionRules`).
* `backend/src/routes/branchProtection.ts` — the protection-status, merge and
  force-merge endpoints.
* `backend/src/services/SocketService.ts` — live connection map and room joins.
* `backend/src/services/NotificationService.ts` — `createNotification`.
* `backend/src/models/*` — the Mongoose schemas the above read and write.

Database state is passed explicitly (a list of records); `Math.random()` draws
made by `checkBranchUpToDate` are passed as an explicit stream `Nat → Rat`.
JavaScript truthiness of the `x || d` fallbacks in the evaluator is modelled
exactly (a numeric `0` falls through to the default, an array never does).
-/

/-- Review decision enum of the PullRequest schema
(`decision: 'approved' | 'rejected' | 'changes_requested'`). -/
inductive Decision where
  | approved
  | rejected
  | changes_requested
deriving DecidableEq

/-- PullRequest `status` enum. The source string `'open'` is rendered as
`opened` because `open` is reserved in Lean. -/
inductive PRStatus where
  | opened
  | reviewing
  | approved
  | rejected
  | merged
  | closed
deriving DecidableEq

/-- A populated reviewer document (`_id` plus the `username` selected by
`populate('reviewDecisions.reviewer')`). -/
structure Reviewer where
  id : Nat
  username : String
deriving DecidableEq

/-- One entry of `pr.reviewDecisions`. -/
structure ReviewDecision where
  reviewer : Reviewer
  decision : Decision
deriving DecidableEq

/-- One entry of `pr.comments`. The schema has no `resolved` field, so the
evaluator reads it as `undefined`; we keep it as an `Option Bool` exactly as
the evaluator's `!comment.resolved` sees it. -/
structure Comment where
  text : String
  resolved : Option Bool
deriving DecidableEq

/-- The slice of a PullRequest document read by the policy engine and the
merge endpoints. `repository` is the optional project id
(`pr.repository?.toString()`). -/
structure PullRequest where
  status : PRStatus
  sourceBranch : String
  targetBranch : String
  repository : Option String
  reviewDecisions : List ReviewDecision
  comments : List Comment
deriving DecidableEq

/-- `requiredStatusChecks` sub-document of a BranchProtectionRule. -/
structure RequiredStatusChecks where
  strict : Bool
  contexts : List String
deriving DecidableEq

/-- The `rules` sub-document of a BranchProtectionRule. -/
structure Rules where
  requirePullRequest : Bool
  requireReviews : Bool
  requiredReviewers : Nat
  dismissStaleReviews : Bool
  requireCodeOwnerReviews : Bool
  restrictPushes : Bool
  allowForcePushes : Bool
  allowDeletions : Bool
  requiredStatusChecks : RequiredStatusChecks
  enforceAdmins : Bool
  restrictReviewDismissals : Bool
  blockCreations : Bool
deriving DecidableEq

/-- A BranchProtectionRule document. -/
structure BranchProtectionRuleRec where
  projectId : String
  branchPattern : String
  rules : Rules
  isActive : Bool
deriving DecidableEq

/-- `BranchProtectionConfig` with the fields the evaluator reads. -/
structure BranchProtectionConfig where
  requiredApprovals : Nat
  requireUpToDate : Bool
  requireConversationResolution : Bool
  protectedBranches : List String
deriving DecidableEq

/-- `defaultConfig` from branchProtection.ts. -/
def defaultConfig : BranchProtectionConfig :=
  { requiredApprovals := 2
    requireUpToDate := true
    requireConversationResolution := true
    protectedBranches := ["main", "master", "develop", "production"] }

/-- The `rules` object installed by the lazy default creation in
`getBranchProtectionRules` (identical in routes/branchProtection.ts). -/
def defaultRules : Rules :=
  { requirePullRequest := true
    requireReviews := true
    requiredReviewers := 2
    dismissStaleReviews := true
    requireCodeOwnerReviews := false
    restrictPushes := true
    allowForcePushes := false
    allowDeletions := false
    requiredStatusChecks := { strict := true, contexts := ["ci/tests", "ci/build"] }
    enforceAdmins := false
    restrictReviewDismissals := false
    blockCreations := false }

/-- The default document `new BranchProtectionRule({projectId, branchPattern:
'main', rules: …})`; the schema defaults `isActive` to `true`. -/
def newDefaultRule (projectId : String) : BranchProtectionRuleRec :=
  { projectId := projectId
    branchPattern := "main"
    rules := defaultRules
    isActive := true }

/-- The `findOne({projectId, isActive: true})` predicate. -/
def ruleMatches (projectId : String) (r : BranchProtectionRuleRec) : Bool :=
  decide (r.projectId = projectId) && r.isActive

/-- `getBranchProtectionRules(projectId)`: look up the active rule for the
project; if none exists, create and persist the default one.  The database is
threaded explicitly; the returned pair is (rule document, database after the
call). -/
def getBranchProtectionRules (db : List BranchProtectionRuleRec) (projectId : String) :
    BranchProtectionRuleRec × List BranchProtectionRuleRec :=
  match db.find? (ruleMatches projectId) with
  | some rules => (rules, db)
  | none =>
      let rules := newDefaultRule projectId
      (rules, db ++ [rules])

/-- `isProtectedBranch(branchName, config)`: membership in the hardcoded
`config.protectedBranches` list. -/
def isProtectedBranch (branchName : String) (config : BranchProtectionConfig) : Bool :=
  config.protectedBranches.contains branchName

/-- `requirements.approvals` of a BranchProtectionStatus. -/
structure ApprovalsReq where
  required : Nat
  current : Nat
  satisfied : Bool
  reviewers : List String
deriving DecidableEq

/-- `requirements.conversations` of a BranchProtectionStatus. -/
structure ConversationsReq where
  unresolved : Nat
  satisfied : Bool
deriving DecidableEq

/-- `requirements.ciChecks` of a BranchProtectionStatus. -/
structure CiChecksReq where
  required : List String
  passing : List String
  satisfied : Bool
deriving DecidableEq

/-- `requirements.upToDate` of a BranchProtectionStatus; `behindBy` is absent
in the initial value and set by `checkBranchUpToDate`. -/
structure UpToDateReq where
  satisfied : Bool
  behindBy : Option Int
deriving DecidableEq

/-- `requirements` of a BranchProtectionStatus. -/
structure Requirements where
  approvals : ApprovalsReq
  conversations : ConversationsReq
  ciChecks : CiChecksReq
  upToDate : UpToDateReq
deriving DecidableEq

/-- The `BranchProtectionStatus` result of the evaluator. -/
structure BranchProtectionStatus where
  canMerge : Bool
  requirements : Requirements
  violations : List String
deriving DecidableEq

/-- JavaScript `x || d` for an optional number: `undefined` and `0` are falsy
and fall through to the default. -/
def jsNumOr (x : Option Nat) (d : Nat) : Nat :=
  match x with
  | some v => if v = 0 then d else v
  | none => d

/-- `requiredApprovals = dbRules?.rules.requiredReviewers ||
config.requiredApprovals`. -/
def requiredApprovalsFor (config : BranchProtectionConfig) (dbRules : Option Rules) : Nat :=
  jsNumOr (dbRules.map fun ru => ru.requiredReviewers) config.requiredApprovals

/-- `requiredChecks = dbRules?.rules.requiredStatusChecks.contexts || []`
(an array, even empty, is truthy in JavaScript). -/
def requiredChecksFor (dbRules : Option Rules) : List String :=
  match dbRules with
  | some ru => ru.requiredStatusChecks.contexts
  | none => []

/-- `requireConversationResolution = dbRules?.rules.dismissStaleReviews ||
config.requireConversationResolution`. -/
def requireConversationResolutionFor (config : BranchProtectionConfig)
    (dbRules : Option Rules) : Bool :=
  (match dbRules with
   | some ru => ru.dismissStaleReviews
   | none => false) || config.requireConversationResolution

/-- `requireUpToDate = requiredChecks.length > 0 ?
(dbRules?.rules.requiredStatusChecks.strict || false) : false`. -/
def requireUpToDateFor (dbRules : Option Rules) : Bool :=
  if 0 < (requiredChecksFor dbRules).length then
    match dbRules with
    | some ru => ru.requiredStatusChecks.strict
    | none => false
  else false

/-- `pr.reviewDecisions?.filter(d => d.decision === 'approved')`. -/
def approvedReviewsOf (pr : PullRequest) : List ReviewDecision :=
  pr.reviewDecisions.filter fun d => decide (d.decision = Decision.approved)

/-- `pr.reviewDecisions?.some(d => d.decision === 'changes_requested')`. -/
def changesRequestedOf (pr : PullRequest) : Bool :=
  pr.reviewDecisions.any fun d => decide (d.decision = Decision.changes_requested)

/-- `pr.comments?.filter(c => !c.resolved)` (an absent `resolved` field is
falsy, hence unresolved). -/
def unresolvedCommentsOf (pr : PullRequest) : List Comment :=
  pr.comments.filter fun c => !(c.resolved.getD false)

/-- The template literal `Requires X approvals, has Y`. -/
def approvalsViolationMsg (required current : Nat) : String :=
  "Requires " ++ toString required ++ " approvals, has " ++ toString current

/-- The template literal `N unresolved conversations`. -/
def unresolvedConversationsMsg (unresolved : Nat) : String :=
  toString unresolved ++ " unresolved conversations"

/-- `checkCIStatus(pr, requiredChecks)`: the mock provider.  With no required
contexts it reports satisfied; otherwise it reports every required context as
passing and hard-codes `satisfied = true`. -/
def checkCIStatus (requiredChecks : List String) : CiChecksReq :=
  if requiredChecks.length = 0 then
    { required := [], passing := [], satisfied := true }
  else
    { required := requiredChecks, passing := requiredChecks, satisfied := true }

/-- `checkBranchUpToDate(pr)`: mock using three `Math.random()` draws, taken
from the explicit stream `oracle`.  `satisfied` iff the first draw exceeds
0.3; `behindBy` is 0 when the second draw exceeds 0.3 and otherwise
`Math.floor(draw * 5) + 1`. -/
def checkBranchUpToDate (oracle : Nat → Rat) : UpToDateReq :=
  { satisfied := decide (mkRat 3 10 < oracle 0)
    behindBy := some (if mkRat 3 10 < oracle 1 then 0 else Rat.floor (oracle 2 * 5) + 1) }

/-- `getBranchProtectionStatus(pr, config, projectId)` after the rule-store
lookup: `dbRules` is the result of `getBranchProtectionRules` (`none` models
its `null` on a store error).  `oracle` is the stream of `Math.random()`
draws consumed by `checkBranchUpToDate`. -/
def getBranchProtectionStatus (pr : PullRequest) (config : BranchProtectionConfig)
    (dbRules : Option Rules) (oracle : Nat → Rat) : BranchProtectionStatus :=
  let requiredApprovals := requiredApprovalsFor config dbRules
  let requiredChecks := requiredChecksFor dbRules
  let requireConversationResolution := requireConversationResolutionFor config dbRules
  let requireUpToDate := requireUpToDateFor dbRules
  let approvedReviews := approvedReviewsOf pr
  let current := approvedReviews.length
  let approvalsSatisfied := decide (requiredApprovals ≤ current)
  let changesRequested := changesRequestedOf pr
  let conversations : ConversationsReq :=
    if requireConversationResolution then
      { unresolved := (unresolvedCommentsOf pr).length
        satisfied := decide ((unresolvedCommentsOf pr).length = 0) }
    else { unresolved := 0, satisfied := true }
  let ciStatus := checkCIStatus requiredChecks
  let upToDate : UpToDateReq :=
    if requireUpToDate then checkBranchUpToDate oracle
    else { satisfied := true, behindBy := none }
  { canMerge := approvalsSatisfied && conversations.satisfied && ciStatus.satisfied
      && upToDate.satisfied && !changesRequested
    requirements :=
      { approvals :=
          { required := requiredApprovals
            current := current
            satisfied := approvalsSatisfied
            reviewers := approvedReviews.map fun d => d.reviewer.username }
        conversations := conversations
        ciChecks := ciStatus
        upToDate := upToDate }
    violations :=
      (if approvalsSatisfied then [] else [approvalsViolationMsg requiredApprovals current])
      ++ (if changesRequested then ["Changes requested by reviewers must be addressed"] else [])
      ++ (if requireConversationResolution && !conversations.satisfied then
            [unresolvedConversationsMsg conversations.unresolved] else [])
      ++ (if !ciStatus.satisfied then ["CI checks must pass before merging"] else [])
      ++ (if requireUpToDate && !upToDate.satisfied then
            ["Branch must be up to date with target branch"] else []) }

/-- `pr.repository?.toString() || 'default'`. -/
def projectIdOf (pr : PullRequest) : String :=
  pr.repository.getD "default"

/-- Outcome of the `validatePRRequirements` middleware: 404, fall through to
the handler (`next()`, with the computed status attached when the branch was
protected), or a 400 with the violation list. -/
inductive ValidateResult where
  | notFound
  | proceed (status : Option BranchProtectionStatus)
  | blocked (status : BranchProtectionStatus)
deriving DecidableEq

/-- `validatePRRequirements`: skip validation for unprotected target
branches, otherwise block (HTTP 400) unless the evaluator's verdict allows
the merge.  `dbRules` is the rule-store answer used by the evaluator. -/
def validatePRRequirements (pr? : Option PullRequest) (dbRules : Option Rules)
    (oracle : Nat → Rat) : ValidateResult :=
  match pr? with
  | none => ValidateResult.notFound
  | some pr =>
      if isProtectedBranch pr.targetBranch defaultConfig then
        let status := getBranchProtectionStatus pr defaultConfig dbRules oracle
        if status.canMerge then ValidateResult.proceed (some status)
        else ValidateResult.blocked status
      else ValidateResult.proceed none

/-- Response of `GET /pull-requests/:id/protection-status`.  The
`notProtected` constructor carries the literal
`{protected, canMerge, message}` body returned without evaluating any
requirement; `evaluated` carries `protected: true` plus the evaluator's
status. -/
inductive ProtectionStatusResponse where
  | notFound
  | notProtected (protectedFlag canMerge : Bool) (message : String)
  | evaluated (protectedFlag : Bool) (status : BranchProtectionStatus)
deriving DecidableEq

/-- `true` iff the response is the short-circuit "not protected" body. -/
def ProtectionStatusResponse.isNotProtectedResp : ProtectionStatusResponse → Bool
  | ProtectionStatusResponse.notProtected _ _ _ => true
  | _ => false

/-- `GET /pull-requests/:id/protection-status` (routes/branchProtection.ts).
Returns the response together with the rule database after the call (the
evaluator's rule lookup may lazily create the default rule). -/
def protectionStatusRoute (pr? : Option PullRequest)
    (db : List BranchProtectionRuleRec) (oracle : Nat → Rat) :
    ProtectionStatusResponse × List BranchProtectionRuleRec :=
  match pr? with
  | none => (ProtectionStatusResponse.notFound, db)
  | some pr =>
      if isProtectedBranch pr.targetBranch defaultConfig then
        let lookup := getBranchProtectionRules db (projectIdOf pr)
        (ProtectionStatusResponse.evaluated true
          (getBranchProtectionStatus pr defaultConfig (some lookup.fst.rules) oracle),
         lookup.snd)
      else
        (ProtectionStatusResponse.notProtected false true "Target branch is not protected", db)

/-- Response of `POST /merge/:id`. -/
inductive MergeResponse where
  | notFound
  | protectionViolated (violations : List String)
  | badRequest (error : String)
  | merged
deriving DecidableEq

/-- `POST /merge/:id`: the `validatePRRequirements` middleware followed by the
handler, which rejects any pull request whose status is not `approved` and
otherwise sets the status to `merged`.  Returns the response and the stored
pull request after the call. -/
def mergeEndpoint (pr? : Option PullRequest) (dbRules : Option Rules)
    (oracle : Nat → Rat) : MergeResponse × Option PullRequest :=
  match validatePRRequirements pr? dbRules oracle with
  | ValidateResult.notFound => (MergeResponse.notFound, pr?)
  | ValidateResult.blocked status => (MergeResponse.protectionViolated status.violations, pr?)
  | ValidateResult.proceed _ =>
      match pr? with
      | none => (MergeResponse.notFound, none)
      | some pr =>
          if pr.status ≠ PRStatus.approved then
            (MergeResponse.badRequest "Pull request must be approved before merging", some pr)
          else
            (MergeResponse.merged, some { pr with status := PRStatus.merged })

/-- The `console.log` audit entry written by the force-merge handler. -/
structure AuditEntry where
  userId : String
  reason : Option String
  method : String
  bypassedProtection : Bool
deriving DecidableEq

/-- Response of `POST /force-merge/:id`. -/
inductive ForceMergeResponse where
  | notFound
  | protectionViolated (violations : List String)
  | forceMerged (reason : Option String) (mergeMethod : String)
deriving DecidableEq

/-- `POST /force-merge/:id`: `checkBypassPermission` has `canBypass` fixed to
`false`, so it always falls through to `validatePRRequirements`; the handler
then merges unconditionally (no check of `reason` or of the pull request's
status) and logs one audit entry.  Returns (response, stored pull request,
audit log entries emitted by this call). -/
def forceMergeEndpoint (userId : String) (reason : Option String)
    (mergeMethod : Option String) (pr? : Option PullRequest)
    (dbRules : Option Rules) (oracle : Nat → Rat) :
    ForceMergeResponse × Option PullRequest × List AuditEntry :=
  match validatePRRequirements pr? dbRules oracle with
  | ValidateResult.notFound => (ForceMergeResponse.notFound, pr?, [])
  | ValidateResult.blocked status =>
      (ForceMergeResponse.protectionViolated status.violations, pr?, [])
  | ValidateResult.proceed _ =>
      match pr? with
      | none => (ForceMergeResponse.notFound, none, [])
      | some pr =>
          let method := mergeMethod.getD "merge"
          (ForceMergeResponse.forceMerged reason method,
           some { pr with status := PRStatus.merged },
           [{ userId := userId, reason := reason, method := method,
              bypassedProtection := true }])

/-- A Room document (models/Room.ts): durable participants of a pull
request's collaboration room. -/
structure Room where
  pullRequestId : String
  projectId : String
  participants : List String
  isActive : Bool
deriving DecidableEq

/-- The data-level part of the `join-pr-room` handler (SocketService.ts):
find or create the Room document, append the joining user to `participants`
unless already present, and save. -/
def joinRoom (userId projectId prId : String) (room? : Option Room) : Room :=
  match room? with
  | none =>
      { pullRequestId := prId, projectId := projectId,
        participants := [userId], isActive := true }
  | some room =>
      if userId ∈ room.participants then room
      else { room with participants := room.participants ++ [userId] }

/-- A sequence of `join-pr-room` events for one pull request's room, applied
to an initially absent Room document. -/
def joinAll (projectId prId : String) (joins : List String) : Option Room :=
  joins.foldl (fun acc u => some (joinRoom u projectId prId acc)) none

/-- Live socket-layer state: the `connectedUsers` map (keyed by user id) and
the socket.io rooms with their members.  Rooms exist only once some socket
has joined them. -/
structure SocketState where
  connectedUsers : List String
  rooms : List (String × List String)
deriving DecidableEq

/-- Initial socket-layer state. -/
def socketInit : SocketState := { connectedUsers := [], rooms := [] }

/-- Members of a socket.io room (empty if the room was never joined). -/
def roomMembers (s : SocketState) (name : String) : List String :=
  match s.rooms.find? (fun r => decide (r.fst = name)) with
  | some r => r.snd
  | none => []

/-- `socket.join(name)`: create the room if needed and add the member once. -/
def addToRoom (s : SocketState) (name member : String) : SocketState :=
  if s.rooms.any (fun r => decide (r.fst = name)) then
    { s with rooms := s.rooms.map fun r =>
        if r.fst = name then
          (r.fst, if member ∈ r.snd then r.snd else r.snd ++ [member])
        else r }
  else { s with rooms := s.rooms ++ [(name, [member])] }

/-- Socket-layer events handled by SocketService.ts. -/
inductive SocketEvent where
  | connect (userId : String)
  | joinPRRoom (userId prId : String)
  | leavePRRoom (userId prId : String)
  | disconnectEv (userId : String)
deriving DecidableEq

/-- One step of the socket layer: `connection` inserts into `connectedUsers`;
`join-pr-room` joins the socket.io room named `pr-` + id (the only rooms the
server ever joins anyone to); `leave-pr-room` leaves it; `disconnect` deletes
the `connectedUsers` entry (socket.io drops the socket from its rooms). -/
def socketStep (s : SocketState) : SocketEvent → SocketState
  | SocketEvent.connect u =>
      { s with connectedUsers :=
          if u ∈ s.connectedUsers then s.connectedUsers else s.connectedUsers ++ [u] }
  | SocketEvent.joinPRRoom u prId => addToRoom s ("pr-" ++ prId)  u
  | SocketEvent.leavePRRoom u prId =>
      { s with rooms := s.rooms.map fun r =>
          if r.fst = "pr-" ++ prId then (r.fst, r.snd.filter fun m => !decide (m = u))
          else r }
  | SocketEvent.disconnectEv u =>
      { connectedUsers := s.connectedUsers.filter fun m => !decide (m = u)
        rooms := s.rooms.map fun r => (r.fst, r.snd.filter fun m => !decide (m = u)) }

/-- Run the socket layer from the initial state. -/
def socketRun (events : List SocketEvent) : SocketState :=
  events.foldl socketStep socketInit

/-- A Notification document (models/Notification.ts); `isRead` defaults to
`false`. -/
structure NotificationRecord where
  recipient : String
  sender : String
  type : String
  title : String
  message : String
  isRead : Bool
deriving DecidableEq

/-- `NotificationService.createNotification`: persist the Notification, then,
when the global `io` handle is set, emit a `notification` event to the
socket.io room `user_` + recipient.  Returns the notification store after the
call and the list of user ids the event was delivered to (the members of that
room). -/
def createNotification (io? : Bool) (s : SocketState)
    (store : List NotificationRecord)
    (recipient sender type title message : String) :
    List NotificationRecord × List String :=
  let record : NotificationRecord :=
    { recipient := recipient, sender := sender, type := type,
      title := title, message := message, isRead := false }
  (store ++ [record],
   if io? then roomMembers s ("user_" ++ recipient) else [])

/-- A constant stream of draws above the 0.3 threshold. -/
def oracleHigh : Nat → Rat := fun _ => 1

/-- A constant stream of draws below the 0.3 threshold. -/
def oracleLow : Nat → Rat := fun _ => mkRat 1 10

/-- Example reviewer. -/
def alice : Reviewer := { id := 1, username := "alice" }

/-- Example reviewer. -/
def bob : Reviewer := { id := 2, username := "bob" }

/-- Pull request with one approval and one later `changes_requested` decision
from different reviewers, targeting a protected branch. -/
def prVeto : PullRequest :=
  { status := PRStatus.opened, sourceBranch := "f", targetBranch := "main",
    repository := some "p1",
    reviewDecisions :=
      [{ reviewer := alice, decision := Decision.approved },
       { reviewer := bob, decision := Decision.changes_requested }],
    comments := [] }

/-- The default rules with `requiredReviewers` lowered to 1. -/
def ruleOneReviewer : Rules := { defaultRules with requiredReviewers := 1 }

/-- Pull request with two approvals from distinct reviewers, no comments,
targeting a protected branch. -/
def prTwoApprovals : PullRequest :=
  { status := PRStatus.opened, sourceBranch := "f", targetBranch := "main",
    repository := some "p1",
    reviewDecisions :=
      [{ reviewer := alice, decision := Decision.approved },
       { reviewer := bob, decision := Decision.approved }],
    comments := [] }

/-- Pull request with no review decisions, targeting a protected branch. -/
def prNoApprovals : PullRequest :=
  { status := PRStatus.opened, sourceBranch := "f", targetBranch := "main",
    repository := some "p1", reviewDecisions := [], comments := [] }

/-- Pull request targeting `develop`: in the hardcoded protected list but
matched by no rule pattern in `dbMainOnly`. -/
def prDevelop : PullRequest :=
  { status := PRStatus.opened, sourceBranch := "f", targetBranch := "develop",
    repository := some "p1", reviewDecisions := [], comments := [] }

/-- Pull request targeting a branch outside the hardcoded protected list. -/
def prFeature : PullRequest :=
  { status := PRStatus.opened, sourceBranch := "f", targetBranch := "feature/x",
    repository := some "p1", reviewDecisions := [], comments := [] }

/-- A rule database whose only active rule has branch pattern `main`. -/
def dbMainOnly : List BranchProtectionRuleRec :=
  [{ projectId := "p1", branchPattern := "main", rules := defaultRules,
     isActive := true }]

/-! ## Theorems -/

/-- C1: for every pull request state and every rule-store answer, if any
reviewer's (latest, hence stored) review decision is `changes_requested`, the
evaluator's verdict has `canMerge = false`, regardless of how many approved
decisions exist. -/
theorem changes_requested_vetoes_merge
    (pr : PullRequest) (config : BranchProtectionConfig) (dbRules : Option Rules)
    (oracle : Nat → Rat)
    (h : ∃ d ∈ pr.reviewDecisions, d.decision = Decision.changes_requested) :
    (getBranchProtectionStatus pr config dbRules oracle).canMerge = false := by
  have hcr : changesRequestedOf pr = true := by
    simpa [changesRequestedOf, List.any_eq_true] using h
  simp [getBranchProtectionStatus, hcr]

/-- Witness for C1 at the spec's own example: required = 1, one `approved`
and one later `changes_requested` from different reviewers, yet blocked. -/
theorem changes_requested_vetoes_merge_witness :
    (∃ d ∈ prVeto.reviewDecisions, d.decision = Decision.changes_requested)
    ∧ ruleOneReviewer.requiredReviewers ≤ (approvedReviewsOf prVeto).length
    ∧ (getBranchProtectionStatus prVeto defaultConfig (some ruleOneReviewer)
        oracleHigh).canMerge = false :=
  ⟨by decide, by decide,
   changes_requested_vetoes_merge prVeto defaultConfig (some ruleOneReviewer)
     oracleHigh (by decide)⟩

/-- C4: for a pull request holding at most one live decision per reviewer and
a stored rule (whose `requiredReviewers` respects the schema minimum of 1),
the approvals requirement is satisfied iff the number of `approved` decisions
is at least the rule's `requiredReviewers`; when unsatisfied a violation
`Requires <required> approvals, has <actual>` is emitted; and the listed
approving reviewers are exactly the approvers' usernames. -/
theorem approvals_requirement_correct
    (pr : PullRequest) (ru : Rules) (oracle : Nat → Rat)
    (hnodup : (pr.reviewDecisions.map fun d => d.reviewer.id).Nodup)
    (hpos : 1 ≤ ru.requiredReviewers) :
    ((getBranchProtectionStatus pr defaultConfig (some ru)
        oracle).requirements.approvals.satisfied = true ↔
      ru.requiredReviewers ≤ (approvedReviewsOf pr).length)
    ∧ ((getBranchProtectionStatus pr defaultConfig (some ru)
          oracle).requirements.approvals.satisfied = false →
        approvalsViolationMsg ru.requiredReviewers (approvedReviewsOf pr).length
          ∈ (getBranchProtectionStatus pr defaultConfig (some ru) oracle).violations)
    ∧ (getBranchProtectionStatus pr defaultConfig (some ru)
        oracle).requirements.approvals.reviewers
        = (approvedReviewsOf pr).map fun d => d.reviewer.username := by
  have hne : ru.requiredReviewers ≠ 0 := by omega
  have hreq : requiredApprovalsFor defaultConfig (some ru) = ru.requiredReviewers := by
    simp [requiredApprovalsFor, jsNumOr, hne]
  refine ⟨?_, ?_, ?_⟩
  · simp [getBranchProtectionStatus, hreq]
  · intro hf
    have hf2 : ¬ (ru.requiredReviewers ≤ (approvedReviewsOf pr).length) := by
      simpa [getBranchProtectionStatus, hreq] using hf
    simp [getBranchProtectionStatus, hreq, hf2]
  · rfl

/-- Witness for C4: with the default rule (2 required) and zero approvals the
requirement is unsatisfied and `Requires 2 approvals, has 0` is among the
violations; the listed reviewers equal the (empty) approver username list. -/
theorem approvals_requirement_correct_witness :
    ((prNoApprovals.reviewDecisions.map fun d => d.reviewer.id).Nodup
      ∧ 1 ≤ defaultRules.requiredReviewers)
    ∧ (((getBranchProtectionStatus prNoApprovals defaultConfig (some defaultRules)
          oracleHigh).requirements.approvals.satisfied = true ↔
        defaultRules.requiredReviewers ≤ (approvedReviewsOf prNoApprovals).length)
      ∧ ((getBranchProtectionStatus prNoApprovals defaultConfig (some defaultRules)
            oracleHigh).requirements.approvals.satisfied = false →
          approvalsViolationMsg defaultRules.requiredReviewers
            (approvedReviewsOf prNoApprovals).length
            ∈ (getBranchProtectionStatus prNoApprovals defaultConfig
                (some defaultRules) oracleHigh).violations)
      ∧ (getBranchProtectionStatus prNoApprovals defaultConfig (some defaultRules)
          oracleHigh).requirements.approvals.reviewers
          = (approvedReviewsOf prNoApprovals).map fun d => d.reviewer.username) :=
  ⟨⟨by decide, by decide⟩,
   approvals_requirement_correct prNoApprovals defaultRules oracleHigh
     (by decide) (by decide)⟩

/-- Counterexample to C5 as stated: two evaluations on identical inputs (the
same pull request, comments and rule) yield different `canMerge` verdicts,
because `checkBranchUpToDate` consumes `Math.random()` draws. -/
theorem evaluator_not_deterministic_on_inputs :
    (getBranchProtectionStatus prTwoApprovals defaultConfig (some defaultRules)
        oracleHigh).canMerge = true
    ∧ (getBranchProtectionStatus prTwoApprovals defaultConfig (some defaultRules)
        oracleLow).canMerge = false := by
  constructor <;> decide

/-- C5 (amended): the evaluator is a pure function of the review state, the
rule set and the `Math.random()` draws consumed by the up-to-date check; and
whenever the effective rule does not require the up-to-date check (empty
required-contexts list, or `strict` unset), the whole result — verdict and
violation list — is independent of the draws. -/
theorem evaluator_deterministic_without_up_to_date_check
    (pr : PullRequest) (config : BranchProtectionConfig) (dbRules : Option Rules)
    (o1 o2 : Nat → Rat) (h : requireUpToDateFor dbRules = false) :
    getBranchProtectionStatus pr config dbRules o1
      = getBranchProtectionStatus pr config dbRules o2 := by
  simp [getBranchProtectionStatus, h]

/-- Witness for amended C5: with no stored rule the up-to-date check is
skipped and the two oracles that differ on every draw give equal results. -/
theorem evaluator_deterministic_without_up_to_date_check_witness :
    requireUpToDateFor none = false
    ∧ getBranchProtectionStatus prTwoApprovals defaultConfig none oracleHigh
        = getBranchProtectionStatus prTwoApprovals defaultConfig none oracleLow :=
  ⟨rfl, evaluator_deterministic_without_up_to_date_check prTwoApprovals
    defaultConfig none oracleHigh oracleLow rfl⟩

/-- Counterexample to C3 as stated: `develop` matches no active rule's branch
pattern in `dbMainOnly` (the only active pattern is `main`), yet the
protection-status endpoint does not return the "not protected" body — branch
protection is keyed on the hardcoded branch list, not on rule patterns. -/
theorem unprotected_marker_not_driven_by_rule_patterns :
    dbMainOnly.all
      (fun r => !(r.isActive && decide (r.branchPattern = prDevelop.targetBranch))) = true
    ∧ (protectionStatusRoute (some prDevelop) dbMainOnly
        oracleHigh).fst.isNotProtectedResp = false := by
  constructor <;> decide

/-- C3 (amended): for every pull request whose target branch is outside the
hardcoded `defaultConfig.protectedBranches` list, the protection-status
endpoint returns `{protected: false, canMerge: true}` with the explicit
"Target branch is not protected" message, evaluates none of the policy
requirements, and leaves the rule store untouched. -/
theorem hardcoded_unprotected_branch_bypass
    (pr : PullRequest) (db : List BranchProtectionRuleRec) (oracle : Nat → Rat)
    (h : pr.targetBranch ∉ defaultConfig.protectedBranches) :
    protectionStatusRoute (some pr) db oracle
      = (ProtectionStatusResponse.notProtected false true
          "Target branch is not protected", db) := by
  have hb : isProtectedBranch pr.targetBranch defaultConfig = false := by
    simp [isProtectedBranch, h]
  simp [protectionStatusRoute, hb]

/-- Witness for amended C3 at a `feature/x` target branch. -/
theorem hardcoded_unprotected_branch_bypass_witness :
    prFeature.targetBranch ∉ defaultConfig.protectedBranches
    ∧ protectionStatusRoute (some prFeature) dbMainOnly oracleHigh
        = (ProtectionStatusResponse.notProtected false true
            "Target branch is not protected", dbMainOnly) :=
  ⟨by decide,
   hardcoded_unprotected_branch_bypass prFeature dbMainOnly oracleHigh (by decide)⟩

/-- `find?` on an appended list looks in the left part first. -/
theorem find_in_append {α : Type} (p : α → Bool) :
    ∀ (l1 l2 : List α),
      (l1 ++ l2).find? p = ((l1.find? p).orElse fun _ => l2.find? p) := by
  intro l1 l2
  induction l1 with
  | nil => simp
  | cons a t ih =>
      by_cases ha : p a = true
      · simp [List.find?, ha]
      · simp only [List.cons_append, List.find?]
        rw [Bool.of_not_eq_true ha]
        simpa using ih

/-- C8: requesting the active rule for a project the database holds no active
rule for creates and persists a rule with `requiredReviewers = 2`,
`strict = true`, `contexts = ["ci/tests", "ci/build"]`, force-pushes and
deletions disallowed; and the lazy-create is idempotent — a second read on
the resulting database returns the same rule without creating a record. -/
theorem default_rule_materialization_idempotent
    (db : List BranchProtectionRuleRec) (p : String)
    (h : db.find? (ruleMatches p) = none) :
    (getBranchProtectionRules db p).fst.rules.requiredReviewers = 2
    ∧ (getBranchProtectionRules db p).fst.rules.requiredStatusChecks.strict = true
    ∧ (getBranchProtectionRules db p).fst.rules.requiredStatusChecks.contexts
        = ["ci/tests", "ci/build"]
    ∧ (getBranchProtectionRules db p).fst.rules.allowForcePushes = false
    ∧ (getBranchProtectionRules db p).fst.rules.allowDeletions = false
    ∧ getBranchProtectionRules (getBranchProtectionRules db p).snd p
        = ((getBranchProtectionRules db p).fst, (getBranchProtectionRules db p).snd) := by
  have h1 : getBranchProtectionRules db p = (newDefaultRule p, db ++ [newDefaultRule p]) := by
    simp [getBranchProtectionRules, h]
  have hmatch : ruleMatches p (newDefaultRule p) = true := by
    simp [ruleMatches, newDefaultRule]
  have h2 : (db ++ [newDefaultRule p]).find? (ruleMatches p) = some (newDefaultRule p) := by
    rw [find_in_append, h]
    simp [List.find?, hmatch]
  rw [h1]
  refine ⟨rfl, rfl, rfl, rfl, rfl, ?_⟩
  simp [getBranchProtectionRules, h2]

/-- Witness for C8 starting from an empty rule database. -/
theorem default_rule_materialization_idempotent_witness :
    ([] : List BranchProtectionRuleRec).find? (ruleMatches "p1") = none
    ∧ ((getBranchProtectionRules [] "p1").fst.rules.requiredReviewers = 2
      ∧ (getBranchProtectionRules [] "p1").fst.rules.requiredStatusChecks.strict = true
      ∧ (getBranchProtectionRules [] "p1").fst.rules.requiredStatusChecks.contexts
          = ["ci/tests", "ci/build"]
      ∧ (getBranchProtectionRules [] "p1").fst.rules.allowForcePushes = false
      ∧ (getBranchProtectionRules [] "p1").fst.rules.allowDeletions = false
      ∧ getBranchProtectionRules (getBranchProtectionRules [] "p1").snd "p1"
          = ((getBranchProtectionRules [] "p1").fst,
             (getBranchProtectionRules [] "p1").snd)) :=
  ⟨rfl, default_rule_materialization_idempotent [] "p1" rfl⟩

/-- Folding `join-pr-room` events over an existing Room with duplicate-free
participants yields a Room whose participants are duplicate-free and are
exactly the old participants together with the joiners. -/
theorem joinAll_invariant (projectId prId : String) :
    ∀ (joins : List String) (r : Room), r.participants.Nodup →
      ∃ r2, joins.foldl (fun acc u => some (joinRoom u projectId prId acc)) (some r)
              = some r2
        ∧ r2.participants.Nodup
        ∧ (∀ v, v ∈ r2.participants ↔ v ∈ r.participants ∨ v ∈ joins) := by
  intro joins
  induction joins with
  | nil =>
      intro r hr
      exact ⟨r, rfl, hr, by simp⟩
  | cons u t ih =>
      intro r hr
      have h1 : (joinRoom u projectId prId (some r)).participants.Nodup ∧
          ∀ v, v ∈ (joinRoom u projectId prId (some r)).participants ↔
            v ∈ r.participants ∨ v = u := by
        by_cases hu : u ∈ r.participants
        · refine ⟨by simpa [joinRoom, hu] using hr, ?_⟩
          intro v
          simp only [joinRoom, hu, if_true]
          constructor
          · exact Or.inl
          · rintro (h | rfl)
            · exact h
            · exact hu
        · refine ⟨?_, ?_⟩
          · simp [joinRoom, hu, List.nodup_append, hr, List.disjoint_singleton]
          · intro v
            simp [joinRoom, hu, List.mem_append]
      obtain ⟨hn1, hm1⟩ := h1
      obtain ⟨r2, hfold, hn2, hm2⟩ := ih (joinRoom u projectId prId (some r)) hn1
      refine ⟨r2, by simpa [List.foldl] using hfold, hn2, ?_⟩
      intro v
      rw [hm2 v, hm1 v]
      simp only [List.mem_cons]
      tauto

/-- C9: after any sequence of data-level `join-pr-room` events on an
initially absent Room document, the stored participants list has no
duplicates, and every user who joined (however many times) occurs exactly
once. -/
theorem room_join_idempotent_no_duplicates
    (projectId prId : String) (joins : List String) (u : String) (hu : u ∈ joins) :
    ∃ room, joinAll projectId prId joins = some room
      ∧ room.participants.Nodup
      ∧ room.participants.count u = 1 := by
  cases joins with
  | nil => cases hu
  | cons j t =>
      have h0 : (joinRoom j projectId prId none).participants.Nodup := by
        simp [joinRoom]
      obtain ⟨r2, hfold, hn, hm⟩ :=
        joinAll_invariant projectId prId t (joinRoom j projectId prId none) h0
      refine ⟨r2, by simpa [joinAll, List.foldl] using hfold, hn, ?_⟩
      have hmem : u ∈ r2.participants := by
        rw [hm u]
        rcases List.mem_cons.mp hu with rfl | ht
        · exact Or.inl (by simp [joinRoom])
        · exact Or.inr ht
      exact List.count_eq_one_of_mem hn hmem

/-- Witness for C9: the same user joining twice ends up in the participants
list exactly once. -/
theorem room_join_idempotent_no_duplicates_witness :
    ("alice" ∈ ["alice", "alice"])
    ∧ ∃ room, joinAll "p1" "42" ["alice", "alice"] = some room
        ∧ room.participants.Nodup
        ∧ room.participants.count "alice" = 1 :=
  ⟨by decide,
   room_join_idempotent_no_duplicates "p1" "42" ["alice", "alice"] "alice" (by decide)⟩

/-- C10: whenever the merge endpoint's protection middleware lets the request
through (unprotected target branch, or a verdict with `canMerge = true`), a
pull request whose status is not `approved` is rejected with the 400 error
`Pull request must be approved before merging` and is left unchanged. -/
theorem merge_requires_approved_status
    (pr : PullRequest) (dbRules : Option Rules) (oracle : Nat → Rat)
    (hstatus : pr.status ≠ PRStatus.approved)
    (hpass : isProtectedBranch pr.targetBranch defaultConfig = false
      ∨ (getBranchProtectionStatus pr defaultConfig dbRules oracle).canMerge = true) :
    mergeEndpoint (some pr) dbRules oracle
      = (MergeResponse.badRequest "Pull request must be approved before merging",
         some pr) := by
  rcases hpass with h | h
  · simp [mergeEndpoint, validatePRRequirements, h, hstatus]
  · by_cases hb : isProtectedBranch pr.targetBranch defaultConfig
    · simp [mergeEndpoint, validatePRRequirements, hb, h, hstatus]
    · simp [mergeEndpoint, validatePRRequirements, hb, hstatus]

/-- Witness for C10: an open pull request on an unprotected branch is
rejected by the merge endpoint with the "must be approved" error. -/
theorem merge_requires_approved_status_witness :
    (prFeature.status ≠ PRStatus.approved
      ∧ isProtectedBranch prFeature.targetBranch defaultConfig = false)
    ∧ mergeEndpoint (some prFeature) none oracleHigh
        = (MergeResponse.badRequest "Pull request must be approved before merging",
           some prFeature) :=
  ⟨⟨by decide, by decide⟩,
   merge_requires_approved_status prFeature none oracleHigh (by decide)
     (Or.inl (by decide))⟩

/-- C6 is a code bug: the force-merge endpoint accepts a justification of
length 5 (`"short"`) — the repository's own `validateForceMerge` schema
(min length 10) is never applied to the route — merges the pull request, and
the only audit trail is the single console log entry carrying the reason.
No 403 path exists: `checkBypassPermission` hard-codes `canBypass = false`
and falls through to `validatePRRequirements`. -/
theorem force_merge_accepts_short_reason :
    "short".length < 10
    ∧ isProtectedBranch prFeature.targetBranch defaultConfig = false
    ∧ forceMergeEndpoint "u1" (some "short") none (some prFeature) none oracleHigh
        = (ForceMergeResponse.forceMerged (some "short") "merge",
           some { prFeature with status := PRStatus.merged },
           [{ userId := "u1", reason := some "short", method := "merge",
              bypassedProtection := true }]) := by
  refine ⟨by decide, by decide, by decide⟩

/-- C7 is a code bug: `createNotification` persists the Notification, but its
real-time push goes to the socket.io room `user_<recipient>`, which no
handler ever joins (only `pr-<id>` rooms are joined), so even a recipient who
is connected in the Presence Registry receives nothing: the delivered-to list
is empty while `alice` is connected with a joined PR room. -/
theorem notification_push_misses_connected_recipient :
    ("alice" ∈ (socketRun [SocketEvent.connect "alice",
        SocketEvent.joinPRRoom "alice" "42"]).connectedUsers)
    ∧ createNotification true
        (socketRun [SocketEvent.connect "alice", SocketEvent.joinPRRoom "alice" "42"])
        [] "alice" "bob" "comment_added" "New comment on pull request" "msg"
        = ([{ recipient := "alice", sender := "bob", type := "comment_added",
              title := "New comment on pull request", message := "msg",
              isRead := false }], []) := by
  constructor <;> decide
